import Mathlib

/-!
# Verification of the compression cache of `astro-compress`

Shallow embedding of `src/CompressionCache.ts`: the cache manager owns an
in-memory manifest (a JS `Record` from original file path to `CacheEntry`)
and a cache directory on disk.  File-system state is modelled explicitly as
an association list from path to byte content, plus the parsed state of the
`manifest.json` file in the cache directory.  The SHA-256 digest comes from
the external `crypto` library, so it is modelled as a parameter
`hashHex : Bytes → String` (any deterministic function); `Date.now()` is a
parameter `now`.  A thrown JS error is an `Except.error`; since the thrown
error aborts the call, the caller's view of the manager state is the state
from before the call, which the `Except` encoding represents by returning
no new state on the error path.
-/

set_option autoImplicit false

namespace AstroCompress

/-- Byte sequences (the content of files and of `Buffer`s). -/
abbrev Bytes := List Nat

/-- JSON-like values: the opaque `settings` object (`UsedFormatConfig`) that
the cache stores verbatim and compares only by `JSON.stringify`.  Object
fields keep their insertion order, as JS objects do. -/
inductive Json where
  | null
  | bool (b : Bool)
  | num (n : Nat)
  | str (s : String)
  | arr (elems : List Json)
  | obj (fields : List (String × Json))
deriving Repr

mutual

/-- `JSON.stringify` on our `Json` values: object keys are serialised in
their stored (insertion) order, exactly as JS `JSON.stringify` does. -/
def jsonStringify : Json → String
  | .null => "null"
  | .bool true => "true"
  | .bool false => "false"
  | .num n => toString n
  | .str s => "\"" ++ s ++ "\""
  | .arr elems => "[" ++ String.intercalate "," (jsonStringifyList elems) ++ "]"
  | .obj fields =>
      "\x7b" ++ String.intercalate "," (jsonStringifyFields fields) ++ "\x7d"

def jsonStringifyList : List Json → List String
  | [] => []
  | v :: vs => jsonStringify v :: jsonStringifyList vs

def jsonStringifyFields : List (String × Json) → List String
  | [] => []
  | (k, v) :: fs => ("\"" ++ k ++ "\":" ++ jsonStringify v) :: jsonStringifyFields fs

end

/-- Strict lexicographic order on key characters (by code point), used
only to pick a canonical order of object fields. -/
def keyLt : List Char → List Char → Bool
  | [], [] => false
  | [], _ :: _ => true
  | _ :: _, [] => false
  | a :: as, b :: bs =>
      Nat.blt a.toNat b.toNat || (Nat.beq a.toNat b.toNat && keyLt as bs)

/-- Insert a field into a key-sorted field list (insertion sort step). -/
def insertField (kv : String × Json) : List (String × Json) → List (String × Json)
  | [] => [kv]
  | kv' :: fs =>
      if keyLt kv.1.data kv'.1.data then kv :: kv' :: fs
      else kv' :: insertField kv fs

/-- Sort object fields by key (insertion sort). -/
def sortFields : List (String × Json) → List (String × Json)
  | [] => []
  | kv :: fs => insertField kv (sortFields fs)

mutual

/-- Canonical form of a `Json` value: object fields are recursively
canonicalised and then sorted by key, so two values are structurally
(deep-)equal exactly when their canonical forms coincide. -/
def jsonCanon : Json → Json
  | .null => .null
  | .bool b => .bool b
  | .num n => .num n
  | .str s => .str s
  | .arr elems => .arr (jsonCanonList elems)
  | .obj fields => .obj (sortFields (jsonCanonFields fields))

def jsonCanonList : List Json → List Json
  | [] => []
  | v :: vs => jsonCanon v :: jsonCanonList vs

def jsonCanonFields : List (String × Json) → List (String × Json)
  | [] => []
  | (k, v) :: fs => (k, jsonCanon v) :: jsonCanonFields fs

end

/-- Structural (deep) equality of two `Json` values, independent of object
key ordering: equality of canonical forms.  This is the spec's notion of
"deep/structural equality over the settings value". -/
def structEq (a b : Json) : Prop := jsonCanon a = jsonCanon b

/-! ## Association lists (JS `Record`s and the file system) -/

/-- Lookup in an association list (`record[key]`, or reading a file). -/
def alookup {α : Type} : List (String × α) → String → Option α
  | [], _ => none
  | (k, v) :: l, key => if k = key then some v else alookup l key

/-- `record[key] = v`: replace the value at the first occurrence of an
existing key in place, otherwise append the new binding (JS records hold
each key at most once, so this is record assignment). -/
def aset {α : Type} : List (String × α) → String → α → List (String × α)
  | [], key, v => [(key, v)]
  | (k, w) :: l, key, v =>
      if k = key then (key, v) :: l else (k, w) :: aset l key v

/-- `delete record[key]` (or removing a file): drop the bindings of `key`. -/
def adelete {α : Type} : List (String × α) → String → List (String × α)
  | [], _ => []
  | (k, w) :: l, key =>
      if k = key then adelete l key else (k, w) :: adelete l key

/-! ## Data model (`CacheEntry`, `CompressionCache`, disk, manager state) -/

/-- `CacheEntry` from `src/CompressionCache.ts`. -/
structure CacheEntry where
  sourceHash : String
  compressedPath : String
  timestamp : Nat
  settings : Json
  sizeOriginal : Nat
  sizeCompressed : Nat
deriving Repr

/-- The manifest (`CompressionCache` interface): a version tag and a
`Record<filepath, CacheEntry>`. -/
structure Manifest where
  version : String
  entries : List (String × CacheEntry)
deriving Repr

/-- The state of the `manifest.json` file in the cache directory:
missing, present but not valid JSON for a manifest, or valid. -/
inductive ManifestFile where
  | missing
  | malformed
  | valid (m : Manifest)
deriving Repr

/-- The file system as the cache manager sees it: ordinary files (sources
and compressed artifacts) by path, plus the manifest file of the manager's
cache directory. -/
structure Disk where
  files : List (String × Bytes)
  manifestFile : ManifestFile
deriving Repr

/-- `readFileSync` / `stat`: the content of the file at `p`, if it exists. -/
def Disk.readFile (d : Disk) (p : String) : Option Bytes := alookup d.files p

/-- `writeFileSync`: create or overwrite the file at `p` with content `b`. -/
def Disk.writeFile (d : Disk) (p : String) (b : Bytes) : Disk :=
  { d with files := aset d.files p b }

/-- `unlink` with an error-logging callback: remove the file at `p` if it
exists; a failure (no such file) is only logged and has no other effect. -/
def Disk.unlink (d : Disk) (p : String) : Disk :=
  { d with files := adelete d.files p }

/-- The state of one `CompressionCacheManagerImpl` instance together with
the disk it acts on. -/
structure ManagerState where
  cacheDir : String
  manifest : Manifest
  disk : Disk
deriving Repr

/-- Errors a cache operation can throw: `readFileSync`/`JSON.parse`
failures and the `TypeError` from reading a property of `undefined`. -/
inductive JsError where
  | readError (path : String)
  | parseError
  | typeError
deriving Repr, DecidableEq

/-- The manifest a freshly constructed manager starts with
(`{ version: '1', entries: {} }`). -/
def emptyManifest : Manifest := { version := "1", entries := [] }

/-- The constructor: binds the cache directory and starts from the empty
manifest. -/
def mkManager (cacheDir : String) (disk : Disk) : ManagerState :=
  { cacheDir := cacheDir, manifest := emptyManifest, disk := disk }

/-! ## The four cache operations -/

/-- `saveManifest`: `writeFileSync(cacheDir/manifest.json,
JSON.stringify(this.manifest))` — the manifest file now holds a valid copy
of the in-memory manifest. -/
def saveManifest (st : ManagerState) : ManagerState :=
  { st with disk := { st.disk with manifestFile := .valid st.manifest } }

/-- `loadManifest`: `readFileSync` then `JSON.parse` of
`cacheDir/manifest.json`; throws if the file is missing or malformed,
otherwise replaces the in-memory manifest with the parsed one. -/
def loadManifest (st : ManagerState) : Except JsError ManagerState :=
  match st.disk.manifestFile with
  | .missing => .error (.readError (st.cacheDir ++ "/manifest.json"))
  | .malformed => .error .parseError
  | .valid m => .ok { st with manifest := m }

/-- The `initCache` function models the source's `async initialize()`:
`mkdirSync` (directories are not otherwise modelled), then
`try { loadManifest() } catch { saveManifest() }` — a load failure is
swallowed and the CURRENT in-memory manifest is persisted. -/
def initCache (st : ManagerState) : ManagerState :=
  match loadManifest st with
  | .ok st' => st'
  | .error _ => saveManifest st

/-- The body of `invalidateCache` once the entry has been found: `unlink`
the artifact (failure only logged), `delete` the manifest entry, and
`saveManifest`.  Factored out because `getCachedFile` reaches it with the
entry already in hand. -/
def invalidateEntry (st : ManagerState) (originalPath : String)
    (entry : CacheEntry) : ManagerState :=
  let disk := st.disk.unlink entry.compressedPath
  let manifest :=
    { st.manifest with entries := adelete st.manifest.entries originalPath }
  saveManifest { st with disk := disk, manifest := manifest }

/-- `invalidateCache(originalPath)`: reads
`this.manifest.entries[originalPath].compressedPath` — when no entry
exists this is a property access on `undefined` and throws a `TypeError`
before anything is mutated. -/
def invalidateCache (st : ManagerState) (originalPath : String) :
    Except JsError ManagerState :=
  match alookup st.manifest.entries originalPath with
  | none => .error .typeError
  | some entry => .ok (invalidateEntry st originalPath entry)

/-- `getCachedFile(originalPath, settings)`: read and hash the source
(its failure propagates), look the path up in the manifest, invalidate on
hash or `JSON.stringify`-settings mismatch, prune the entry if the
artifact file is gone, otherwise return the entry untouched. -/
def getCachedFile (hashHex : Bytes → String) (st : ManagerState)
    (originalPath : String) (settings : Json) :
    Except JsError (Option CacheEntry × ManagerState) :=
  match st.disk.readFile originalPath with
  | none => .error (.readError originalPath)
  | some originalContent =>
    let sourceOriginalHash := hashHex originalContent
    match alookup st.manifest.entries originalPath with
    | none => .ok (none, st)
    | some entry =>
      if entry.sourceHash ≠ sourceOriginalHash then
        .ok (none, invalidateEntry st originalPath entry)
      else if jsonStringify entry.settings ≠ jsonStringify settings then
        .ok (none, invalidateEntry st originalPath entry)
      else
        match st.disk.readFile entry.compressedPath with
        | some _ => .ok (some entry, st)
        | none =>
          let manifest :=
            { st.manifest with
              entries := adelete st.manifest.entries originalPath }
          .ok (none, saveManifest { st with manifest := manifest })

/-- `originalPath.split('.').pop() || ''`: the characters after the last
`'.'` of the path, or the whole path if it has none (scanning left to
right, resetting the accumulator at each dot). -/
def extChars : List Char → List Char → List Char
  | [], acc => acc.reverse
  | c :: cs, acc => if c = '.' then extChars cs [] else extChars cs (c :: acc)

/-- The extension the code derives for the artifact filename. -/
def extOf (p : String) : String := String.mk (extChars p.data [])

/-- `saveToCache(originalPath, compressedContent, settings)`: read and
hash the source (failure propagates), write the compressed bytes at
`cacheDir/<hash>.<ext>`, build the new entry with timestamp `now`
(`Date.now()`), insert it into the manifest and persist the manifest. -/
def saveToCache (hashHex : Bytes → String) (now : Nat) (st : ManagerState)
    (originalPath : String) (compressedContent : Bytes) (settings : Json) :
    Except JsError ManagerState :=
  match st.disk.readFile originalPath with
  | none => .error (.readError originalPath)
  | some originalContent =>
    let sourceOriginalHash := hashHex originalContent
    let cachedFileName := sourceOriginalHash ++ "." ++ extOf originalPath
    let cachedFilePath := st.cacheDir ++ "/" ++ cachedFileName
    let disk := st.disk.writeFile cachedFilePath compressedContent
    let entry : CacheEntry :=
      { sourceHash := sourceOriginalHash
        compressedPath := cachedFilePath
        timestamp := now
        settings := settings
        sizeOriginal := originalContent.length
        sizeCompressed := compressedContent.length }
    let manifest :=
      { st.manifest with entries := aset st.manifest.entries originalPath entry }
    .ok (saveManifest { st with disk := disk, manifest := manifest })

/-- The state `saveToCache` produces when the source is readable. -/
def savedState (hashHex : Bytes → String) (now : Nat) (st : ManagerState)
    (originalPath : String) (compressedContent : Bytes) (settings : Json)
    (orig : Bytes) : ManagerState :=
  let cachedFilePath :=
    st.cacheDir ++ "/" ++ (hashHex orig ++ "." ++ extOf originalPath)
  saveManifest
    { st with
      disk := st.disk.writeFile cachedFilePath compressedContent
      manifest :=
        { st.manifest with
          entries := aset st.manifest.entries originalPath
            { sourceHash := hashHex orig
              compressedPath := cachedFilePath
              timestamp := now
              settings := settings
              sizeOriginal := orig.length
              sizeCompressed := compressedContent.length } } }

/-! ## Concrete fixtures used by witnesses and counterexamples -/

/-- A concrete deterministic stand-in for the parametric hash function. -/
def wHash : Bytes → String := fun b => "h" ++ toString (b.foldl (fun a n => a + n) 0)

/-- Settings with fields in one insertion order. -/
def wSettingsA : Json := .obj [("config", .obj []), ("format", .str "css")]

/-- The same settings with the two fields in the other insertion order. -/
def wSettingsB : Json := .obj [("format", .str "css"), ("config", .obj [])]

def wEntry : CacheEntry :=
  { sourceHash := "h6", compressedPath := "/cache/h6.css", timestamp := 5
    settings := wSettingsA, sizeOriginal := 3, sizeCompressed := 1 }

def wManifest : Manifest := { version := "1", entries := [("/s/a.css", wEntry)] }

/-- A state on which a lookup of `/s/a.css` with `wSettingsA` is a hit. -/
def hitSt : ManagerState :=
  { cacheDir := "/cache", manifest := wManifest
    disk := { files := [("/s/a.css", [1, 2, 3]), ("/cache/h6.css", [9])]
              manifestFile := .valid wManifest } }

/-- Like `hitSt` but the artifact file is missing from disk. -/
def missingArtifactSt : ManagerState :=
  { cacheDir := "/cache", manifest := wManifest
    disk := { files := [("/s/a.css", [1, 2, 3])]
              manifestFile := .valid wManifest } }

def wEntryStale : CacheEntry :=
  { sourceHash := "h0", compressedPath := "/cache/h0.css", timestamp := 5
    settings := wSettingsA, sizeOriginal := 3, sizeCompressed := 1 }

def staleManifest : Manifest :=
  { version := "1", entries := [("/s/a.css", wEntryStale)] }

/-- A state whose entry's `sourceHash` no longer matches the source bytes. -/
def staleSt : ManagerState :=
  { cacheDir := "/cache", manifest := staleManifest
    disk := { files := [("/s/a.css", [1, 2, 3]), ("/cache/h0.css", [9])]
              manifestFile := .valid staleManifest } }

/-- A fresh manager over a disk holding only the source file. -/
def freshSt : ManagerState :=
  mkManager "/cache"
    { files := [("/s/a.css", [1, 2, 3])], manifestFile := .missing }

/-- A manager that already holds in-memory entries while the manifest file
on disk is missing. -/
def dirtySt : ManagerState :=
  { cacheDir := "/cache", manifest := wManifest
    disk := { files := [], manifestFile := .missing } }

/-! ## String and extension lemmas -/

theorem string_data_append (a b : String) : (a ++ b).data = a.data ++ b.data := by
  cases a; cases b; rfl

theorem extChars_no_dot : ∀ (cs acc : List Char), ('.' ∈ cs → False) →
    extChars cs acc = acc.reverse ++ cs
  | [], acc, _ => by simp [extChars]
  | c :: cs, acc, h => by
    have hc : ¬ c = '.' := fun hh => h (by simp [hh])
    have ih := extChars_no_dot cs (c :: acc) (fun hh => h (by simp [hh]))
    simp [extChars, hc, ih]

theorem extChars_after_dot : ∀ (xs ys : List Char) (acc : List Char),
    extChars (xs ++ '.' :: ys) acc = extChars ys []
  | [], ys, acc => by simp [extChars]
  | x :: xs, ys, acc => by
    by_cases hx : x = '.'
    · simp [extChars, hx, extChars_after_dot xs ys]
    · simp [extChars, hx, extChars_after_dot xs ys]

theorem extOf_append_ext (stem eext : String) (h : ('.' ∈ eext.data → False)) :
    extOf (stem ++ "." ++ eext) = eext := by
  unfold extOf
  have hdata : (stem ++ "." ++ eext).data = stem.data ++ '.' :: eext.data := by
    rw [string_data_append, string_data_append]
    show stem.data ++ ['.'] ++ eext.data = stem.data ++ '.' :: eext.data
    simp
  rw [hdata, extChars_after_dot, extChars_no_dot eext.data [] h]
  cases eext
  rfl

/-! ## Association-list lemmas -/

theorem alookup_aset_self {α : Type} (key : String) (v : α) :
    ∀ l : List (String × α), alookup (aset l key v) key = some v
  | [] => by simp [aset, alookup]
  | (k, w) :: l => by
    by_cases hk : k = key
    · simp [aset, hk, alookup]
    · simp [aset, hk, alookup, alookup_aset_self key v l]

theorem alookup_adelete_self {α : Type} (key : String) :
    ∀ l : List (String × α), alookup (adelete l key) key = none
  | [] => rfl
  | (k, w) :: l => by
    by_cases hk : k = key
    · simpa [adelete, hk] using alookup_adelete_self key l
    · simpa [adelete, alookup, hk] using alookup_adelete_self key l

/-! ## Path equations for the operations -/

theorem saveToCache_eq (hashHex : Bytes → String) (now : Nat)
    (st : ManagerState) (p : String) (b : Bytes) (s : Json) (orig : Bytes)
    (h : st.disk.readFile p = some orig) :
    saveToCache hashHex now st p b s =
      .ok (savedState hashHex now st p b s orig) := by
  unfold saveToCache savedState
  rw [h]

theorem getCachedFile_hit (hashHex : Bytes → String) (st : ManagerState)
    (p : String) (s : Json) (orig c : Bytes) (entry : CacheEntry)
    (hread : st.disk.readFile p = some orig)
    (hent : alookup st.manifest.entries p = some entry)
    (hhash : entry.sourceHash = hashHex orig)
    (hset : jsonStringify entry.settings = jsonStringify s)
    (hart : st.disk.readFile entry.compressedPath = some c) :
    getCachedFile hashHex st p s = .ok (some entry, st) := by
  unfold getCachedFile
  rw [hread]
  simp only [hent, hhash, hset, hart, ne_eq, not_true_eq_false, if_false,
    ite_self]

theorem getCachedFile_hashMismatch (hashHex : Bytes → String)
    (st : ManagerState) (p : String) (s : Json) (orig : Bytes)
    (entry : CacheEntry)
    (hread : st.disk.readFile p = some orig)
    (hent : alookup st.manifest.entries p = some entry)
    (hhash : entry.sourceHash ≠ hashHex orig) :
    getCachedFile hashHex st p s = .ok (none, invalidateEntry st p entry) := by
  unfold getCachedFile
  rw [hread]
  simp only [hent, ne_eq, hhash, not_false_eq_true, if_true]

theorem getCachedFile_settingsMismatch (hashHex : Bytes → String)
    (st : ManagerState) (p : String) (s : Json) (orig : Bytes)
    (entry : CacheEntry)
    (hread : st.disk.readFile p = some orig)
    (hent : alookup st.manifest.entries p = some entry)
    (hhash : entry.sourceHash = hashHex orig)
    (hset : jsonStringify entry.settings ≠ jsonStringify s) :
    getCachedFile hashHex st p s = .ok (none, invalidateEntry st p entry) := by
  unfold getCachedFile
  rw [hread]
  simp only [hent, hhash, hset, ne_eq, not_true_eq_false, if_false,
    not_false_eq_true, if_true]

theorem getCachedFile_missingArtifact (hashHex : Bytes → String)
    (st : ManagerState) (p : String) (s : Json) (orig : Bytes)
    (entry : CacheEntry)
    (hread : st.disk.readFile p = some orig)
    (hent : alookup st.manifest.entries p = some entry)
    (hhash : entry.sourceHash = hashHex orig)
    (hset : jsonStringify entry.settings = jsonStringify s)
    (hart : st.disk.readFile entry.compressedPath = none) :
    getCachedFile hashHex st p s =
      .ok (none, saveManifest
        { st with manifest :=
          { st.manifest with entries := adelete st.manifest.entries p } }) := by
  unfold getCachedFile
  rw [hread]
  simp only [hent, hhash, hset, hart, ne_eq, not_true_eq_false, if_false,
    ite_self]

/-! ## Claims -/


/-- C1: saving to the cache and immediately looking the same path up with
the same settings is a hit whose artifact file holds exactly the saved
bytes: if the source at `p` is readable and its bytes are unchanged
between the two calls, `saveToCache p b s` followed by
`getCachedFile p s` returns a non-null entry, and the file at the entry's
`compressedPath` contains exactly `b`. -/
theorem c1_save_then_get_roundtrip (hashHex : Bytes → String) (now : Nat)
    (st st₁ : ManagerState) (p : String) (b orig : Bytes) (s : Json)
    (horig : st.disk.readFile p = some orig)
    (hsave : saveToCache hashHex now st p b s = .ok st₁)
    (hunchanged : st₁.disk.readFile p = some orig) :
    ∃ e : CacheEntry, getCachedFile hashHex st₁ p s = .ok (some e, st₁) ∧
      st₁.disk.readFile e.compressedPath = some b := by
  rw [saveToCache_eq hashHex now st p b s orig horig] at hsave
  injection hsave with hsave
  subst hsave
  exact ⟨_, getCachedFile_hit hashHex _ p s orig b _ hunchanged
    (alookup_aset_self p _ st.manifest.entries) rfl rfl
    (alookup_aset_self _ b st.disk.files),
    alookup_aset_self _ b st.disk.files⟩

/-- C1 witness at a concrete state. -/
theorem c1_save_then_get_roundtrip_witness :
    ∃ e : CacheEntry,
      getCachedFile wHash (savedState wHash 5 freshSt "/s/a.css" [9] wSettingsA [1, 2, 3])
        "/s/a.css" wSettingsA =
        .ok (some e, savedState wHash 5 freshSt "/s/a.css" [9] wSettingsA [1, 2, 3]) ∧
      (savedState wHash 5 freshSt "/s/a.css" [9] wSettingsA [1, 2, 3]).disk.readFile
        e.compressedPath = some [9] :=
  c1_save_then_get_roundtrip wHash 5 freshSt _ "/s/a.css" [9] [1, 2, 3]
    wSettingsA rfl rfl rfl

/-- C2 counterexample: two settings values that are structurally (deep)
equal but whose serializations differ only in object key ordering ARE
treated as a mismatch: on a state whose entry stores `wSettingsA`,
looking up with `wSettingsB` invalidates the entry and returns
not-found, refuting the claim that key-order differences are not a
mismatch. -/
theorem c2_structural_settings_counterexample :
    structEq wSettingsA wSettingsB ∧
    getCachedFile wHash hitSt "/s/a.css" wSettingsB =
      .ok (none, invalidateEntry hitSt "/s/a.css" wEntry) ∧
    alookup (invalidateEntry hitSt "/s/a.css" wEntry).manifest.entries
      "/s/a.css" = none := by
  refine ⟨?_, rfl, rfl⟩
  unfold structEq
  rfl

/-- C2 amended: with the entry present, the hash matching and the artifact
file present, `getCachedFile` treats the supplied settings as matching
exactly when `JSON.stringify` of the stored and supplied settings are the
same string (so serialization key order matters): on equality it is a hit,
on inequality it invalidates and returns not-found. -/
theorem c2_settings_compared_by_stringify (hashHex : Bytes → String)
    (st : ManagerState) (p : String) (s : Json) (orig c : Bytes)
    (entry : CacheEntry)
    (hread : st.disk.readFile p = some orig)
    (hent : alookup st.manifest.entries p = some entry)
    (hhash : entry.sourceHash = hashHex orig)
    (hart : st.disk.readFile entry.compressedPath = some c) :
    (jsonStringify entry.settings = jsonStringify s →
      getCachedFile hashHex st p s = .ok (some entry, st)) ∧
    (jsonStringify entry.settings ≠ jsonStringify s →
      getCachedFile hashHex st p s = .ok (none, invalidateEntry st p entry) ∧
      alookup (invalidateEntry st p entry).manifest.entries p = none) := by
  constructor
  · intro hset
    exact getCachedFile_hit hashHex st p s orig c entry hread hent hhash hset hart
  · intro hset
    exact ⟨getCachedFile_settingsMismatch hashHex st p s orig entry hread hent
      hhash hset, alookup_adelete_self p st.manifest.entries⟩

/-- C2 witness at a concrete state. -/
theorem c2_settings_compared_by_stringify_witness :
    (jsonStringify wEntry.settings = jsonStringify wSettingsA →
      getCachedFile wHash hitSt "/s/a.css" wSettingsA = .ok (some wEntry, hitSt)) ∧
    (jsonStringify wEntry.settings ≠ jsonStringify wSettingsA →
      getCachedFile wHash hitSt "/s/a.css" wSettingsA =
        .ok (none, invalidateEntry hitSt "/s/a.css" wEntry) ∧
      alookup (invalidateEntry hitSt "/s/a.css" wEntry).manifest.entries
        "/s/a.css" = none) :=
  c2_settings_compared_by_stringify wHash hitSt "/s/a.css" wSettingsA
    [1, 2, 3] [9] wEntry rfl rfl rfl rfl

/-- C3: when the source file cannot be read, both `getCachedFile` and
`saveToCache` throw the read error to the caller instead of returning
not-found; in this embedding a thrown error produces no successor state,
i.e. the in-memory manifest and the manifest file are left as they were,
because the source read is the first step of both operations. -/
theorem c3_source_unreadable_propagates (hashHex : Bytes → String)
    (now : Nat) (st : ManagerState) (p : String) (b : Bytes) (s : Json)
    (h : st.disk.readFile p = none) :
    getCachedFile hashHex st p s = .error (.readError p) ∧
    saveToCache hashHex now st p b s = .error (.readError p) := by
  constructor
  · unfold getCachedFile
    rw [h]
  · unfold saveToCache
    rw [h]

/-- C3 witness at a concrete state. -/
theorem c3_source_unreadable_propagates_witness :
    getCachedFile wHash freshSt "/s/missing.css" wSettingsA =
      .error (.readError "/s/missing.css") ∧
    saveToCache wHash 5 freshSt "/s/missing.css" [9] wSettingsA =
      .error (.readError "/s/missing.css") :=
  c3_source_unreadable_propagates wHash 5 freshSt "/s/missing.css" [9]
    wSettingsA rfl

/-- C4: when the entry matches by hash and settings but the artifact file
at `entry.compressedPath` does not exist, `getCachedFile` removes the
entry, persists the manifest, and returns not-found without throwing; the
disk's ordinary files are untouched (no deletion of the already-missing
artifact is attempted). -/
theorem c4_missing_artifact_selfheal (hashHex : Bytes → String)
    (st : ManagerState) (p : String) (s : Json) (orig : Bytes)
    (entry : CacheEntry)
    (hread : st.disk.readFile p = some orig)
    (hent : alookup st.manifest.entries p = some entry)
    (hhash : entry.sourceHash = hashHex orig)
    (hset : jsonStringify entry.settings = jsonStringify s)
    (hart : st.disk.readFile entry.compressedPath = none) :
    ∃ st' : ManagerState, getCachedFile hashHex st p s = .ok (none, st') ∧
      alookup st'.manifest.entries p = none ∧
      st'.disk.manifestFile = .valid st'.manifest ∧
      st'.disk.files = st.disk.files := by
  refine ⟨_, getCachedFile_missingArtifact hashHex st p s orig entry hread
    hent hhash hset hart, ?_, rfl, rfl⟩
  exact alookup_adelete_self p st.manifest.entries

/-- C4 witness at a concrete state. -/
theorem c4_missing_artifact_selfheal_witness :
    ∃ st' : ManagerState,
      getCachedFile wHash missingArtifactSt "/s/a.css" wSettingsA =
        .ok (none, st') ∧
      alookup st'.manifest.entries "/s/a.css" = none ∧
      st'.disk.manifestFile = .valid st'.manifest ∧
      st'.disk.files = missingArtifactSt.disk.files :=
  c4_missing_artifact_selfheal wHash missingArtifactSt "/s/a.css" wSettingsA
    [1, 2, 3] wEntry rfl rfl rfl rfl rfl

/-- C5: when the stored `sourceHash` differs from the hash of the current
source bytes, `getCachedFile` returns not-found and invalidates: the entry
is removed from the in-memory manifest, the manifest is persisted, and the
artifact file at the entry's `compressedPath` no longer exists
afterwards. -/
theorem c5_hash_mismatch_invalidates (hashHex : Bytes → String)
    (st : ManagerState) (p : String) (s : Json) (orig : Bytes)
    (entry : CacheEntry)
    (hread : st.disk.readFile p = some orig)
    (hent : alookup st.manifest.entries p = some entry)
    (hhash : entry.sourceHash ≠ hashHex orig) :
    ∃ st' : ManagerState, getCachedFile hashHex st p s = .ok (none, st') ∧
      alookup st'.manifest.entries p = none ∧
      st'.disk.manifestFile = .valid st'.manifest ∧
      st'.disk.readFile entry.compressedPath = none := by
  refine ⟨_, getCachedFile_hashMismatch hashHex st p s orig entry hread hent
    hhash, ?_, rfl, ?_⟩
  · exact alookup_adelete_self p st.manifest.entries
  · exact alookup_adelete_self entry.compressedPath st.disk.files

/-- C5 witness at a concrete state. -/
theorem c5_hash_mismatch_invalidates_witness :
    ∃ st' : ManagerState,
      getCachedFile wHash staleSt "/s/a.css" wSettingsA = .ok (none, st') ∧
      alookup st'.manifest.entries "/s/a.css" = none ∧
      st'.disk.manifestFile = .valid st'.manifest ∧
      st'.disk.readFile wEntryStale.compressedPath = none :=
  c5_hash_mismatch_invalidates wHash staleSt "/s/a.css" wSettingsA [1, 2, 3]
    wEntryStale rfl rfl (by decide)

/-- C6: a cache hit is read-only: when the source is readable, the entry
is present, the hash and the stringified settings match and the artifact
file exists, `getCachedFile` returns the stored entry together with the
manager state it started from, completely unchanged (hence two
consecutive hits return entries with identical timestamp and identical
artifact bytes). -/
theorem c6_hit_is_readonly (hashHex : Bytes → String) (st : ManagerState)
    (p : String) (s : Json) (orig c : Bytes) (entry : CacheEntry)
    (hread : st.disk.readFile p = some orig)
    (hent : alookup st.manifest.entries p = some entry)
    (hhash : entry.sourceHash = hashHex orig)
    (hset : jsonStringify entry.settings = jsonStringify s)
    (hart : st.disk.readFile entry.compressedPath = some c) :
    getCachedFile hashHex st p s = .ok (some entry, st) :=
  getCachedFile_hit hashHex st p s orig c entry hread hent hhash hset hart

/-- C6 witness at a concrete state. -/
theorem c6_hit_is_readonly_witness :
    getCachedFile wHash hitSt "/s/a.css" wSettingsA = .ok (some wEntry, hitSt) :=
  c6_hit_is_readonly wHash hitSt "/s/a.css" wSettingsA [1, 2, 3] [9] wEntry
    rfl rfl rfl rfl rfl

/-- C7 counterexample: `initialize()` does not fall back to the EMPTY
manifest on a load failure — it persists the instance's current in-memory
manifest.  `dirtySt` holds a non-empty in-memory manifest while the
manifest file is missing; after `initCache` the persisted manifest is that
non-empty manifest, not the empty `version = "1"` one the claim
requires for every instance state. -/
theorem c7_initialize_fallback_counterexample :
    dirtySt.disk.manifestFile = .missing ∧
    (initCache dirtySt).disk.manifestFile = .valid wManifest ∧
    wManifest ≠ emptyManifest := by
  refine ⟨rfl, rfl, ?_⟩
  intro h
  have h' := congrArg Manifest.entries h
  simp [wManifest, emptyManifest] at h'

/-- C7 amended: on a load failure (manifest file missing or malformed),
`initialize()` swallows the error and persists the manager's CURRENT
in-memory manifest — which is the empty `version = "1"` manifest only for
a freshly constructed manager — so the cache directory contains a valid
manifest after the call returns. -/
theorem c7_initialize_persists_current_manifest (st : ManagerState)
    (hfail : st.disk.manifestFile = .missing ∨
      st.disk.manifestFile = .malformed) :
    initCache st = saveManifest st ∧
    (initCache st).disk.manifestFile = .valid st.manifest ∧
    (st.manifest = emptyManifest →
      (initCache st).disk.manifestFile = .valid emptyManifest) := by
  have hstep : initCache st = saveManifest st := by
    rcases hfail with h | h <;>
      · unfold initCache loadManifest
        rw [h]
  refine ⟨hstep, ?_, ?_⟩
  · rw [hstep]
    rfl
  · intro hm
    rw [hstep]
    show ManifestFile.valid st.manifest = ManifestFile.valid emptyManifest
    rw [hm]

/-- C7 witness at a concrete state: a freshly constructed manager over a
missing manifest file persists the empty manifest. -/
theorem c7_initialize_persists_current_manifest_witness :
    initCache freshSt = saveManifest freshSt ∧
    (initCache freshSt).disk.manifestFile = .valid freshSt.manifest ∧
    (freshSt.manifest = emptyManifest →
      (initCache freshSt).disk.manifestFile = .valid emptyManifest) :=
  c7_initialize_persists_current_manifest freshSt (Or.inl rfl)

/-- The `unlink` of a path that has no file is a no-op on the file list. -/
theorem adelete_eq_self {α : Type} (key : String) :
    ∀ l : List (String × α), alookup l key = none → adelete l key = l
  | [], _ => rfl
  | (k, w) :: l, h => by
    by_cases hk : k = key
    · simp [alookup, hk] at h
    · have ih := adelete_eq_self key l (by simpa [alookup, hk] using h)
      simp [adelete, hk, ih]

/-- C8: `invalidateCache` on a path that has an entry removes the entry
and persists the manifest even when deleting the artifact file fails
(here: the file at `entry.compressedPath` does not exist, so the `unlink`
fails and is only logged); the deletion failure leaves the file list
untouched and does not prevent or abort the manifest update. -/
theorem c8_invalidate_removes_entry_despite_unlink_failure
    (st : ManagerState) (p : String) (entry : CacheEntry)
    (hent : alookup st.manifest.entries p = some entry)
    (hfail : st.disk.readFile entry.compressedPath = none) :
    ∃ st' : ManagerState, invalidateCache st p = .ok st' ∧
      alookup st'.manifest.entries p = none ∧
      st'.disk.manifestFile = .valid st'.manifest ∧
      st'.disk.files = st.disk.files := by
  refine ⟨invalidateEntry st p entry, ?_, ?_, rfl, ?_⟩
  · unfold invalidateCache
    rw [hent]
  · exact alookup_adelete_self p st.manifest.entries
  · exact adelete_eq_self entry.compressedPath st.disk.files hfail

/-- C8 witness at a concrete state. -/
theorem c8_invalidate_removes_entry_despite_unlink_failure_witness :
    ∃ st' : ManagerState,
      invalidateCache missingArtifactSt "/s/a.css" = .ok st' ∧
      alookup st'.manifest.entries "/s/a.css" = none ∧
      st'.disk.manifestFile = .valid st'.manifest ∧
      st'.disk.files = missingArtifactSt.disk.files :=
  c8_invalidate_removes_entry_despite_unlink_failure missingArtifactSt
    "/s/a.css" wEntry rfl rfl

/-- C9: `saveToCache` writes the compressed bytes to the file
`cacheDir/<hash>.<ext>` — directly inside the cache directory, named by
the hexadecimal source hash, a dot, and the original file's extension
(the part of the path after its last dot) — overwriting whatever was at
that derived path, and the new entry's `compressedPath` is exactly this
derived path. -/
theorem c9_artifact_named_hash_dot_ext (hashHex : Bytes → String)
    (now : Nat) (st : ManagerState) (p stem eext : String) (b orig : Bytes)
    (s : Json)
    (hread : st.disk.readFile p = some orig)
    (hp : p = stem ++ "." ++ eext)
    (hdot : '.' ∈ eext.data → False) :
    ∃ st' : ManagerState, saveToCache hashHex now st p b s = .ok st' ∧
      ∃ entry : CacheEntry, alookup st'.manifest.entries p = some entry ∧
        entry.compressedPath =
          st.cacheDir ++ "/" ++ (hashHex orig ++ "." ++ eext) ∧
        st'.disk.readFile entry.compressedPath = some b := by
  subst hp
  refine ⟨_, saveToCache_eq hashHex now st _ b s orig hread, _,
    alookup_aset_self _ _ st.manifest.entries, ?_, ?_⟩
  · show st.cacheDir ++ "/" ++ (hashHex orig ++ "." ++ extOf (stem ++ "." ++ eext)) =
      st.cacheDir ++ "/" ++ (hashHex orig ++ "." ++ eext)
    rw [extOf_append_ext stem eext hdot]
  · exact alookup_aset_self _ b st.disk.files

/-- C9 witness at a concrete state. -/
theorem c9_artifact_named_hash_dot_ext_witness :
    ∃ st' : ManagerState,
      saveToCache wHash 5 freshSt "/s/a.css" [9] wSettingsA = .ok st' ∧
      ∃ entry : CacheEntry,
        alookup st'.manifest.entries "/s/a.css" = some entry ∧
        entry.compressedPath =
          freshSt.cacheDir ++ "/" ++ (wHash [1, 2, 3] ++ "." ++ "css") ∧
        st'.disk.readFile entry.compressedPath = some [9] :=
  c9_artifact_named_hash_dot_ext wHash 5 freshSt "/s/a.css" "/s/a" "css"
    [9] [1, 2, 3] wSettingsA rfl rfl (by decide)

/-- C10: `invalidateCache` on a path that has no manifest entry throws
(the property access `entries[path].compressedPath` on `undefined` is a
`TypeError`) before any mutation: the error path yields no successor
state, so the in-memory manifest, the manifest file and all artifact
files are as they were — it is not a silent no-op. -/
theorem c10_invalidate_missing_entry_throws (st : ManagerState)
    (p : String) (h : alookup st.manifest.entries p = none) :
    invalidateCache st p = .error .typeError := by
  unfold invalidateCache
  rw [h]

/-- C10 witness at a concrete state. -/
theorem c10_invalidate_missing_entry_throws_witness :
    invalidateCache freshSt "/s/a.css" = .error .typeError :=
  c10_invalidate_missing_entry_throws freshSt "/s/a.css" rfl

end AstroCompress
